import Mathlib

/-!
Verification of the jackknife estimation engine specified for the
`resample` repository, together with the statistic and bootstrap-bias
helpers defined in the repository's notebook
`notebooks/jackknife_vs_bootstrap.ipynb`.

Numeric observations and estimates are embedded as rationals, so that
the arithmetic of the formulas is exact and decidable.
-/

namespace Resample

/-- Arithmetic mean of a list of rationals (`np.mean`); `0` on the empty
list, matching the convention `x / 0 = 0` of rational division. -/
def mean (xs : List ℚ) : ℚ := xs.sum / xs.length

/-- Modelled from the spec: the jackknife engine's `resample(sample)`
(`resample.jackknife.resample`, not present in the observed sources).
For each index `i` in `[0, N)` in ascending order it yields the sample
with the observation at position `i` removed, preserving the relative
order of the remaining `N - 1` observations. -/
def resample {α : Type} (sample : List α) : List (List α) :=
  (List.range sample.length).map (fun i => sample.eraseIdx i)

/-- Modelled from the spec: the engine's error taxonomy; only the
`DomainError` case is reachable in the operations embedded here. -/
inductive EngineError where
  | DomainError (msg : String)
deriving DecidableEq, Repr

/-- The replicate set: the statistic applied to each leave-one-out
resample, indexed by the excluded position. -/
def replicates {α : Type} (statistic : List α → List ℚ) (sample : List α) :
    List (List ℚ) :=
  (resample sample).map statistic

/-- Component `j` across a list of replicate vectors (`0` when a vector
is too short): the per-dimension view used for aggregation. -/
def dimProj (R : List (List ℚ)) (j : ℕ) : List ℚ :=
  R.map (fun r => r.getD j 0)

/-- Modelled from the spec: `variance(statistic, sample)`
(`resample.jackknife.variance`, not present in the observed sources).
Fails with `DomainError` for `N < 2`; otherwise returns, per output
dimension, `((N-1)/N) * sum over i of (R[i] - R_mean)^2`. -/
def variance {α : Type} (statistic : List α → List ℚ) (sample : List α) :
    Except EngineError (List ℚ) :=
  let N := sample.length
  if N < 2 then
    .error (.DomainError "insufficient sample size for jackknife")
  else
    let R := replicates statistic sample
    let k := (R.headD []).length
    .ok ((List.range k).map (fun j =>
      let Rj := dimProj R j
      let m := mean Rj
      ((N : ℚ) - 1) / (N : ℚ) * (Rj.map (fun x => (x - m) ^ 2)).sum))

/-- Modelled from the spec: `bias(statistic, sample)`
(`resample.jackknife.bias`, not present in the observed sources).
Fails with `DomainError` for `N < 2`; otherwise returns, per output
dimension, `(N-1) * (R_mean - theta)` with `theta = statistic(sample)`. -/
def bias {α : Type} (statistic : List α → List ℚ) (sample : List α) :
    Except EngineError (List ℚ) :=
  let N := sample.length
  if N < 2 then
    .error (.DomainError "insufficient sample size for jackknife")
  else
    let theta := statistic sample
    let R := replicates statistic sample
    .ok ((List.range theta.length).map (fun j =>
      ((N : ℚ) - 1) * (mean (dimProj R j) - theta.getD j 0)))

/-- The notebook's statistic `fn(d) = (np.mean(d), np.var(d, ddof=0))`:
the sample mean paired with the biased variance. -/
def fn (d : List ℚ) : List ℚ :=
  [mean d, mean (d.map (fun x => (x - mean d) ^ 2))]

/-- The notebook's bootstrap bias `b_bias(fn, sample)`.  The bootstrap
resamples come from the external `resample.bootstrap.resample`, which is
random; they are embedded as an explicit argument `reps`. -/
def b_bias (f : List ℚ → List ℚ) (sample : List ℚ) (reps : List (List ℚ)) :
    List ℚ :=
  let theta := f sample
  let b_rep := reps.map f
  (List.range theta.length).map (fun j => mean (dimProj b_rep j) - theta.getD j 0)

/-- The notebook's exact reference bias
`(0, -1 / (len(data) - 1) * fn(data)[1])`. -/
def exactBias (data : List ℚ) : List ℚ :=
  [0, -1 / ((data.length : ℚ) - 1) * (fn data).getD 1 0]

/-- The mean statistic used in the spec's worked scenario. -/
def meanStat (d : List ℚ) : List ℚ := [mean d]

/-! ### Helper lemmas -/

theorem length_resample {α : Type} (sample : List α) :
    (resample sample).length = sample.length := by
  simp [resample]

theorem length_replicates {α : Type} (f : List α → List ℚ) (sample : List α) :
    (replicates f sample).length = sample.length := by
  simp [replicates, length_resample]

theorem getD_map_lt {α β : Type} (l : List α) (f : α → β) {i : ℕ}
    (h : i < l.length) (d : β) (d' : α) :
    (l.map f).getD i d = f (l.getD i d') := by
  simp [List.getD_eq_getElem?_getD, List.getElem?_map,
    List.getElem?_eq_getElem (by simpa using h : i < l.length)]

theorem getD_range_lt {i k : ℕ} (h : i < k) (d : ℕ) :
    (List.range k).getD i d = i := by
  simp [List.getD_eq_getElem?_getD, List.getElem?_range h]

theorem resample_getD {α : Type} (sample : List α) {i : ℕ}
    (h : i < sample.length) :
    (resample sample).getD i [] = sample.eraseIdx i := by
  unfold resample
  rw [getD_map_lt _ _ (by simpa using h) [] 0, getD_range_lt h]

theorem length_dimProj (R : List (List ℚ)) (j : ℕ) :
    (dimProj R j).length = R.length := by
  simp [dimProj]

theorem sum_getD (l : List ℚ) :
    l.sum = ∑ i ∈ Finset.range l.length, l.getD i 0 := by
  induction l with
  | nil => simp
  | cons a t ih =>
      rw [List.sum_cons, ih, List.length_cons, Finset.sum_range_succ']
      simp [List.getD_cons_succ, List.getD_cons_zero, add_comm]

theorem dimProj_getD (R : List (List ℚ)) (j : ℕ) {i : ℕ} (h : i < R.length) :
    (dimProj R j).getD i 0 = (R.getD i []).getD j 0 := by
  unfold dimProj
  rw [getD_map_lt _ _ h 0 []]

theorem sum_dimProj (R : List (List ℚ)) (j : ℕ) :
    (dimProj R j).sum = ∑ i ∈ Finset.range R.length, (R.getD i []).getD j 0 := by
  rw [sum_getD, length_dimProj]
  exact Finset.sum_congr rfl fun i hi =>
    dimProj_getD R j (Finset.mem_range.mp hi)

theorem mean_dimProj (R : List (List ℚ)) (j : ℕ) :
    mean (dimProj R j) =
      (∑ i ∈ Finset.range R.length, (R.getD i []).getD j 0) / (R.length : ℚ) := by
  rw [mean, sum_dimProj, length_dimProj]

theorem sum_sq_dev (R : List (List ℚ)) (j : ℕ) (m : ℚ) :
    ((dimProj R j).map (fun x => (x - m) ^ 2)).sum =
      ∑ i ∈ Finset.range R.length, ((R.getD i []).getD j 0 - m) ^ 2 := by
  rw [sum_getD]
  simp only [List.length_map, length_dimProj]
  exact Finset.sum_congr rfl fun i hi => by
    rw [getD_map_lt _ _ (by simp [length_dimProj]; exact Finset.mem_range.mp hi) 0 0,
      dimProj_getD R j (Finset.mem_range.mp hi)]

theorem variance_ok {α : Type} (f : List α → List ℚ) (sample : List α)
    (h2 : 2 ≤ sample.length) :
    variance f sample =
      Except.ok ((List.range ((replicates f sample).headD []).length).map (fun j =>
        ((sample.length : ℚ) - 1) / (sample.length : ℚ) *
          ((dimProj (replicates f sample) j).map
            (fun x => (x - mean (dimProj (replicates f sample) j)) ^ 2)).sum)) := by
  unfold variance
  rw [if_neg (by omega)]

theorem bias_ok {α : Type} (f : List α → List ℚ) (sample : List α)
    (h2 : 2 ≤ sample.length) :
    bias f sample =
      Except.ok ((List.range (f sample).length).map (fun j =>
        ((sample.length : ℚ) - 1) *
          (mean (dimProj (replicates f sample) j) - (f sample).getD j 0))) := by
  unfold bias
  rw [if_neg (by omega)]

theorem list_sum_map_range (f : ℕ → ℚ) (n : ℕ) :
    ((List.range n).map f).sum = ∑ i ∈ Finset.range n, f i := by
  induction n with
  | zero => simp
  | succ n ih =>
      rw [List.range_succ, List.map_append, List.sum_append,
        Finset.sum_range_succ, ih]
      simp

theorem sum_eraseIdx (l : List ℚ) : ∀ {i : ℕ}, i < l.length →
    (l.eraseIdx i).sum = l.sum - l.getD i 0 := by
  induction l with
  | nil => intro i h; simp at h
  | cons a t ih =>
      intro i h
      cases i with
      | zero => simp [List.eraseIdx]
      | succ i =>
          have ht : i < t.length := by simpa using h
          simp only [List.eraseIdx, List.sum_cons, List.getD_cons_succ, ih ht]
          ring

/-! ### Claim theorems -/

/-- C3: for every sample of size `N ≥ 1`, `resample(sample)` yields exactly
`N` leave-one-out resamples, each of size `N - 1`, in ascending order of
excluded index (the `i`-th entry is the sample with position `i` removed,
preserving the relative order of the rest), and each resample together with
its excluded element recovers the original sample's multiset. -/
theorem resample_spec {α : Type} (sample : List α) (h1 : 1 ≤ sample.length) :
    (resample sample).length = sample.length ∧
    ∀ i (hi : i < sample.length),
      ((resample sample).getD i []).length = sample.length - 1 ∧
      (resample sample).getD i [] = sample.take i ++ sample.drop (i + 1) ∧
      ((resample sample).getD i [] : Multiset α) + {sample.get ⟨i, hi⟩} =
        (sample : Multiset α) := by
  refine ⟨length_resample sample, fun i hi => ?_⟩
  rw [resample_getD sample hi]
  refine ⟨by rw [List.length_eraseIdx]; simp [hi],
    List.eraseIdx_eq_take_drop_succ _ _, ?_⟩
  rw [← Multiset.coe_singleton, Multiset.coe_add, Multiset.coe_eq_coe]
  have hstep :
      (sample.take i ++ (sample.drop (i + 1) ++ [sample.get ⟨i, hi⟩])).Perm
        (sample.take i ++ (sample.get ⟨i, hi⟩ :: sample.drop (i + 1))) :=
    List.Perm.append_left _ (List.perm_append_singleton _ _)
  have hsplit : sample.take i ++ (sample.get ⟨i, hi⟩ :: sample.drop (i + 1)) =
      sample := by
    rw [List.get_eq_getElem, ← List.drop_eq_getElem_cons hi,
      List.take_append_drop]
  rw [List.eraseIdx_eq_take_drop_succ, List.append_assoc]
  rw [hsplit] at hstep
  exact hstep

/-- C7: `resample` is deterministic — two invocations on the same sample
yield identical sequences of resamples, with no hidden state. -/
theorem resample_deterministic {α : Type} (s t : List α) (h : s = t) :
    (resample s).length = (resample t).length ∧
    ∀ i, (resample s).getD i [] = (resample t).getD i [] := by
  subst h
  exact ⟨rfl, fun _ => rfl⟩

/-- C8: for a singleton sample, `resample` succeeds and yields exactly one
resample, which is empty. -/
theorem resample_singleton {α : Type} (a : α) :
    resample [a] = [[]] ∧ (resample [a]).length = 1 ∧
      ((resample [a]).getD 0 []).length = 0 :=
  ⟨rfl, rfl, rfl⟩

/-- C4: for `N < 2` both `variance` and `bias` fail with
`DomainError "insufficient sample size for jackknife"`, and for `N ≥ 2`
both succeed (the error branch is not taken). -/
theorem jackknife_small_sample_error {α : Type} (f : List α → List ℚ)
    (sample : List α) :
    (sample.length < 2 →
      variance f sample =
        Except.error
          (EngineError.DomainError "insufficient sample size for jackknife") ∧
      bias f sample =
        Except.error
          (EngineError.DomainError "insufficient sample size for jackknife")) ∧
    (2 ≤ sample.length →
      (∃ v, variance f sample = Except.ok v) ∧
        ∃ b, bias f sample = Except.ok b) := by
  constructor
  · intro h
    constructor
    · unfold variance
      rw [if_pos h]
    · unfold bias
      rw [if_pos h]
  · intro h
    exact ⟨⟨_, variance_ok f sample h⟩, ⟨_, bias_ok f sample h⟩⟩

/-- C1: for every statistic and every sample of size `N ≥ 2`, `variance`
returns, per output dimension `j`, `((N-1)/N) * Σ_{i<N} (R[i][j] - R_mean[j])^2`
where `R` is the replicate set and `R_mean` its per-dimension mean. -/
theorem jackknife_variance_formula {α : Type} (f : List α → List ℚ)
    (sample : List α) (h2 : 2 ≤ sample.length) :
    ∃ v, variance f sample = Except.ok v ∧
      v.length = ((replicates f sample).headD []).length ∧
      ∀ j, j < v.length →
        v.getD j 0 =
          ((sample.length : ℚ) - 1) / (sample.length : ℚ) *
            ∑ i ∈ Finset.range sample.length,
              (((replicates f sample).getD i []).getD j 0 -
                (∑ i2 ∈ Finset.range sample.length,
                  ((replicates f sample).getD i2 []).getD j 0) /
                  (sample.length : ℚ)) ^ 2 := by
  refine ⟨_, variance_ok f sample h2, by simp, fun j hj => ?_⟩
  simp only [List.length_map, List.length_range] at hj
  rw [getD_map_lt _ _ (by simpa using hj) 0 0, getD_range_lt hj 0]
  simp only [sum_sq_dev, mean_dimProj, length_replicates]

/-- C2: for every statistic and every sample of size `N ≥ 2`, `bias`
returns, per output dimension `j`, `(N-1) * (R_mean[j] - theta[j])` where
`theta` is the statistic of the full sample and `R_mean` the per-dimension
mean of the replicate set. -/
theorem jackknife_bias_formula {α : Type} (f : List α → List ℚ)
    (sample : List α) (h2 : 2 ≤ sample.length) :
    ∃ b, bias f sample = Except.ok b ∧
      b.length = (f sample).length ∧
      ∀ j, j < b.length →
        b.getD j 0 =
          ((sample.length : ℚ) - 1) *
            ((∑ i ∈ Finset.range sample.length,
                ((replicates f sample).getD i []).getD j 0) /
                (sample.length : ℚ) -
              (f sample).getD j 0) := by
  refine ⟨_, bias_ok f sample h2, by simp, fun j hj => ?_⟩
  simp only [List.length_map, List.length_range] at hj
  rw [getD_map_lt _ _ (by simpa using hj) 0 0, getD_range_lt hj 0]
  simp only [mean_dimProj, length_replicates]

/-- C6: for every sample of size `N ≥ 2`, the jackknife bias of the sample
mean is exactly zero (the computation is exact over the rationals). -/
theorem jackknife_bias_of_mean_zero (sample : List ℚ)
    (h2 : 2 ≤ sample.length) :
    bias meanStat sample = Except.ok [0] := by
  rw [bias_ok meanStat sample h2]
  have hR : dimProj (replicates meanStat sample) 0 =
      (List.range sample.length).map (fun i => mean (sample.eraseIdx i)) := by
    simp [dimProj, replicates, resample, meanStat, List.map_map, Function.comp]
  have hN1 : ((sample.length : ℚ) - 1) ≠ 0 := by
    have : (2 : ℚ) ≤ (sample.length : ℚ) := by exact_mod_cast h2
    linarith
  have hNpos : ((sample.length : ℚ)) ≠ 0 := by
    have : (2 : ℚ) ≤ (sample.length : ℚ) := by exact_mod_cast h2
    linarith
  have hsum : ∑ i ∈ Finset.range sample.length, mean (sample.eraseIdx i) =
      sample.sum := by
    have hterm : ∀ i ∈ Finset.range sample.length,
        mean (sample.eraseIdx i) =
          (sample.sum - sample.getD i 0) / ((sample.length : ℚ) - 1) := by
      intro i hi
      have hi' : i < sample.length := Finset.mem_range.mp hi
      rw [mean, sum_eraseIdx sample hi', List.length_eraseIdx, if_pos hi']
      have : ((sample.length - 1 : ℕ) : ℚ) = (sample.length : ℚ) - 1 := by
        have h1 : 1 ≤ sample.length := by omega
        push_cast [h1]
        ring
      rw [this]
    rw [Finset.sum_congr rfl hterm, ← Finset.sum_div, Finset.sum_sub_distrib,
      Finset.sum_const, Finset.card_range, ← sum_getD, nsmul_eq_mul]
    field_simp
    ring
  have hmean : mean (dimProj (replicates meanStat sample) 0) = mean sample := by
    rw [mean, hR, list_sum_map_range, hsum]
    simp [mean]
  have hlen : (meanStat sample).length = 1 := rfl
  rw [hlen]
  simp only [show List.range 1 = [0] from rfl, List.map_cons, List.map_nil,
    hmean]
  simp [meanStat]

/-- C5: for the sample `[1, 2, 3, 4, 5]` and the mean statistic, the
jackknife variance is `1/2`; the five leave-one-out means are
`3.5, 3.25, 3, 2.75, 2.5`, their mean is `3`, the sum of squared deviations
is `5/8`, and `(4/5) * (5/8) = 1/2`. -/
theorem jackknife_variance_scenario :
    variance meanStat [1, 2, 3, 4, 5] = Except.ok [(1 : ℚ) / 2] ∧
    (resample ([1, 2, 3, 4, 5] : List ℚ)).map mean =
      [7 / 2, 13 / 4, 3, 11 / 4, 5 / 2] ∧
    mean [7 / 2, 13 / 4, 3, 11 / 4, 5 / 2] = 3 ∧
    (([7 / 2, 13 / 4, 3, 11 / 4, 5 / 2] : List ℚ).map
      (fun x => (x - 3) ^ 2)).sum = 5 / 8 ∧
    ((5 : ℚ) - 1) / 5 * (5 / 8) = 1 / 2 := by
  refine ⟨?_, ?_, ?_, ?_, ?_⟩ <;>
    norm_num [variance, replicates, resample, dimProj, mean, meanStat,
      List.eraseIdx, List.range_succ]

/-- C9: the notebook's statistic `fn` returns the pair of the sample mean
and the biased variance (`ddof = 0` normalization), so every estimate the
notebook derives from it is a 2-dimensional vector. -/
theorem fn_mean_biased_variance (d : List ℚ) (h1 : 1 ≤ d.length) :
    (fn d).length = 2 ∧
    (fn d).getD 0 0 = mean d ∧
    (fn d).getD 1 0 = (d.map (fun x => (x - mean d) ^ 2)).sum / (d.length : ℚ) ∧
    (2 ≤ d.length →
      (∃ v, variance fn d = Except.ok v ∧ v.length = 2) ∧
      ∃ b, bias fn d = Except.ok b ∧ b.length = 2) := by
  refine ⟨rfl, rfl, ?_, fun h2 => ?_⟩
  · simp [fn, mean]
  · have hhead : ((replicates fn d).head?.getD []).length = 2 := by
      obtain ⟨a, t, rfl⟩ : ∃ a t, d = a :: t := by
        cases d with
        | nil => simp at h2
        | cons a t => exact ⟨a, t, rfl⟩
      simp [replicates, resample, List.range_succ_eq_map, fn]
    exact ⟨⟨_, variance_ok fn d h2, by simp [hhead]⟩,
      ⟨_, bias_ok fn d h2, by simp [fn]⟩⟩

/-- C10: the notebook's bootstrap bias is the unscaled
`mean(replicates) - theta`, per output dimension — with no `(N-1)` factor,
unlike the jackknife convention — and its exact reference bias for the
biased-variance component is `-1/(N-1) * fn(data)[1]`. -/
theorem b_bias_unscaled (f : List ℚ → List ℚ) (sample : List ℚ)
    (reps : List (List ℚ)) (data : List ℚ) (h2 : 2 ≤ data.length) :
    (b_bias f sample reps).length = (f sample).length ∧
    (∀ j, j < (f sample).length →
      (b_bias f sample reps).getD j 0 =
        mean (dimProj (reps.map f) j) - (f sample).getD j 0) ∧
    (exactBias data).getD 0 0 = 0 ∧
    (exactBias data).getD 1 0 =
      -1 / ((data.length : ℚ) - 1) *
        ((data.map (fun x => (x - mean data) ^ 2)).sum / (data.length : ℚ)) := by
  refine ⟨by simp [b_bias], fun j hj => ?_, rfl, ?_⟩
  · simp only [b_bias]
    rw [getD_map_lt _ _ (by simpa using hj) 0 0, getD_range_lt hj 0]
  · simp [exactBias, fn, mean]

/-! ### Witnesses -/

theorem resample_spec_witness :
    1 ≤ ([1, 2] : List ℚ).length ∧
      (resample ([1, 2] : List ℚ)).length = ([1, 2] : List ℚ).length :=
  ⟨by decide, (resample_spec ([1, 2] : List ℚ) (by decide)).1⟩

theorem resample_deterministic_witness :
    ([1, 2] : List ℚ) = [1, 2] ∧
      (resample ([1, 2] : List ℚ)).length = (resample ([1, 2] : List ℚ)).length :=
  ⟨rfl, (resample_deterministic ([1, 2] : List ℚ) [1, 2] rfl).1⟩

theorem jackknife_small_sample_error_witness :
    ([1] : List ℚ).length < 2 ∧
      variance meanStat [1] =
        Except.error
          (EngineError.DomainError "insufficient sample size for jackknife") :=
  ⟨by decide, ((jackknife_small_sample_error meanStat [1]).1 (by decide)).1⟩

theorem jackknife_variance_formula_witness :
    2 ≤ ([1, 2, 3] : List ℚ).length ∧
      ∃ v, variance meanStat [1, 2, 3] = Except.ok v ∧
        v.length = ((replicates meanStat [1, 2, 3]).headD []).length :=
  ⟨by decide,
    (jackknife_variance_formula meanStat [1, 2, 3] (by decide)).elim
      (fun v hv => ⟨v, hv.1, hv.2.1⟩)⟩

theorem jackknife_bias_formula_witness :
    2 ≤ ([1, 2, 3] : List ℚ).length ∧
      ∃ b, bias meanStat [1, 2, 3] = Except.ok b ∧
        b.length = (meanStat [1, 2, 3]).length :=
  ⟨by decide,
    (jackknife_bias_formula meanStat [1, 2, 3] (by decide)).elim
      (fun b hb => ⟨b, hb.1, hb.2.1⟩)⟩

theorem jackknife_bias_of_mean_zero_witness :
    2 ≤ ([1, 2, 3] : List ℚ).length ∧
      bias meanStat [1, 2, 3] = Except.ok [0] :=
  ⟨by decide, jackknife_bias_of_mean_zero [1, 2, 3] (by decide)⟩

theorem fn_mean_biased_variance_witness :
    1 ≤ ([1, 2] : List ℚ).length ∧ (fn [1, 2]).length = 2 :=
  ⟨by decide, (fn_mean_biased_variance [1, 2] (by decide)).1⟩

theorem b_bias_unscaled_witness :
    2 ≤ ([1, 2] : List ℚ).length ∧ (exactBias [1, 2]).getD 0 0 = 0 :=
  ⟨by decide, (b_bias_unscaled fn [1, 2] [] [1, 2] (by decide)).2.2.1⟩

end Resample
